import Mathlib

/-!
Verification of the chat-session logic of the repository: the message store
with its merge/sort operations (`ChatInterface.tsx`), the send pipeline
(`ChatInput.tsx`, `ChatInterface.tsx`, `Home.tsx`), the world-history
normalization (`routes.ts` together with `ChatInterface.tsx`), and the
pagination scroll restoration.

Conventions of the embedding:
* JS `Date` values are modelled as `Int` milliseconds (`getTime()`).
* JS `undefined`-able fields are modelled as `Option`.
* JS `a || b` on strings is modelled by `jsOrStr` (absent or empty falls through).
* JS `Array.prototype.sort` with the comparator
  `(a, b) => a.timestamp.getTime() - b.timestamp.getTime()` is a stable sort by
  ascending timestamp; it is modelled by `List.insertionSort`, the canonical
  stable sort, which produces the same list as any stable sort for a total
  preorder.
-/

namespace Chat

open scoped List

/-- Role of a chat turn (`"user" | "assistant"` in `ChatInterface.tsx`). -/
inductive Role where
  | user
  | assistant
deriving DecidableEq, Repr

/-- The `Message` type of `ChatInterface.tsx` (lines 16-22): id, role, content,
timestamp, and the optional Azure row key `azureMessageId` (the remote id). -/
structure Message where
  id : String
  role : Role
  content : String
  timestamp : Int
  azureMessageId : Option String := none
deriving DecidableEq, Repr

/-- Comparator order used by every `.sort((a, b) => a.timestamp - b.timestamp)`
in `ChatInterface.tsx`: ascending timestamp. -/
def tsLE (a b : Message) : Prop := a.timestamp ≤ b.timestamp

/-- Strict version of `tsLE`, used to reason about tie-free lists. -/
def tsLT (a b : Message) : Prop := a.timestamp < b.timestamp

instance : DecidableRel tsLE := fun a b => inferInstanceAs (Decidable (a.timestamp ≤ b.timestamp))

instance : IsTotal Message tsLE := ⟨fun a b => Int.le_total a.timestamp b.timestamp⟩

instance : IsTrans Message tsLE := ⟨fun _ _ _ h h' => le_trans h h'⟩

instance : IsAntisymm Message tsLT := ⟨fun _ _ h h' => absurd h' (lt_asymm h)⟩

/-- The stable ascending-timestamp sort applied by `ChatInterface.tsx` at lines
122, 201 and 209 (`combined.sort((a, b) => a.timestamp.getTime() - b.timestamp.getTime())`). -/
def sortByTimestamp (l : List Message) : List Message :=
  l.insertionSort tsLE

/-- Remote ids of the turns of a store, as produced by
`prev.map(m => m.azureMessageId)` at `ChatInterface.tsx:205`. -/
def remoteIds (l : List Message) : List (Option String) :=
  l.map (fun m => m.azureMessageId)

/-- The duplicate filter of `ChatInterface.tsx:205-206`:
`olderMessages.filter(m => !existingIds.has(m.azureMessageId))` where
`existingIds = new Set(prev.map(m => m.azureMessageId))`. A missing
`azureMessageId` (JS `undefined`, here `none`) is an ordinary set member. -/
def newIncoming (prev older : List Message) : List Message :=
  older.filter (fun m => decide (m.azureMessageId ∉ remoteIds prev))

/-- The `setMessages` updater of `loadOlderMessages` (`ChatInterface.tsx:204-210`):
filter the incoming page against the existing ids, prepend the survivors, and
re-sort the whole store ascending by timestamp. -/
def mergeOlder (prev older : List Message) : List Message :=
  sortByTimestamp (newIncoming prev older ++ prev)

/-- The optimistic append of `handleSend` (`ChatInterface.tsx:288, 321, 338`):
`setMessages(prev => [...prev, msg])`. -/
def appendLocal (prev : List Message) (t : Message) : List Message :=
  prev ++ [t]

/-! ### Interleavings of `appendLocal` and `mergeOlder` (claims about the store) -/

/-- One store operation of the message store: either the optimistic append
performed by `handleSend` or the merge performed by `loadOlderMessages`. -/
inductive StoreOp where
  | appendLocal (t : Message)
  | mergeOlder (page : List Message)
deriving DecidableEq, Repr

/-- Apply one store operation, exactly as the two `setMessages` updaters do. -/
def applyOp (s : List Message) : StoreOp → List Message
  | .appendLocal t => appendLocal s t
  | .mergeOlder page => mergeOlder s page

/-- Run an interleaving of store operations from an initial store. -/
def runOps (s : List Message) (ops : List StoreOp) : List Message :=
  ops.foldl applyOp s

/-- The turns contributed by one operation. -/
def opTurns : StoreOp → List Message
  | .appendLocal t => [t]
  | .mergeOlder page => page

/-- All turns involved in an interleaving: the initial store followed by every
appended turn and every merged page, in operation order. -/
def allTurns (init : List Message) (ops : List StoreOp) : List Message :=
  init ++ (ops.map opTurns).flatten

/-- Modelled from the spec sentence of the claim (for refinement comparison):
keep a turn unless an earlier turn carried the same defined `remoteId`; turns
without a `remoteId` are never considered duplicates. -/
def specAddTurn (acc : List Message) (t : Message) : List Message :=
  if t.azureMessageId.isSome ∧ t.azureMessageId ∈ remoteIds acc then acc else acc ++ [t]

/-- Fold of `specAddTurn` starting from an accumulator. -/
def specDedupFrom (acc l : List Message) : List Message :=
  l.foldl specAddTurn acc

/-- Spec-side duplicate removal over a list of turns. -/
def specDedup (l : List Message) : List Message :=
  specDedupFrom [] l

/-- Spec-side expected store: the sorted union of all involved turns with
duplicates (repeated defined `remoteId`) removed. -/
def specStore (init : List Message) (ops : List StoreOp) : List Message :=
  sortByTimestamp (specDedup (allTurns init ops))

/-- Well-formedness of one operation as used by the amended merge invariant:
appended turns carry no remote id (as the optimistic turns built by
`handleSend` indeed do not), and merged pages are made of turns that all carry
a remote id, with no id repeated inside one page. -/
def OpWf : StoreOp → Prop
  | .appendLocal t => t.azureMessageId = none
  | .mergeOlder page =>
      (∀ t ∈ page, t.azureMessageId.isSome = true) ∧ (remoteIds page).Nodup

instance : DecidablePred OpWf := fun op =>
  match op with
  | .appendLocal t => inferInstanceAs (Decidable (t.azureMessageId = none))
  | .mergeOlder page =>
      inferInstanceAs (Decidable ((∀ t ∈ page, t.azureMessageId.isSome = true) ∧ (remoteIds page).Nodup))

/-! ### The send pipeline (`ChatInput.tsx`, `ChatInterface.tsx`, `Home.tsx`) -/

/-- Whitespace as removed by JS `String.prototype.trim`: spaces, tabs, line
breaks, form/vertical feeds and the no-break space. -/
def isJsWhitespace (c : Char) : Bool :=
  c == ' ' || c == '\t' || c == '\n' || c == '\r' || c == '\x0b' || c == '\x0c' || c == '\u00A0'

/-- JS `message.trim()`: strip leading and trailing whitespace. -/
def jsTrim (s : String) : String :=
  String.mk (((s.toList.dropWhile isJsWhitespace).reverse.dropWhile isJsWhitespace).reverse)

/-- JS `a || b` on string-valued fields: an absent (`undefined`) or empty
string falls through to the right operand. -/
def jsOrStr (a b : Option String) : Option String :=
  match a with
  | some s => if s = "" then b else some s
  | none => b

/-- Shape of the parsed reply body used at `ChatInterface.tsx:318`:
`response.ai?.reply` and `response.reply`, either possibly absent. -/
structure SendResponse where
  aiReply : Option String
  reply : Option String
deriving DecidableEq, Repr

/-- Content of the assistant turn built from a reply
(`response.ai?.reply || response.reply || "No reply received"`). -/
def replyContent (r : SendResponse) : String :=
  (jsOrStr r.aiReply (jsOrStr r.reply none)).getD "No reply received"

/-- The fixed apology content appended on a failed send
(`ChatInterface.tsx:335`). -/
def apologyText : String := "Sorry, I encountered an error. Please try again."

/-- Outcome of the awaited network round trip of one send: a parsed reply, or
any of the failure classes (network rejection, non-2xx status, empty body,
unparseable body), all of which surface as a thrown error caught at
`ChatInterface.tsx:330`. -/
inductive SendOutcome where
  | success (response : SendResponse)
  | failure
deriving DecidableEq, Repr

/-- A world as selected in `ChatInterface.tsx` (fields read at lines 297-310). -/
structure World where
  id : String
  name : String
  model : String
  temperature : Int
  maxTokens : Int
  responseStyle : String
  conversationStyle : String
  customPersonality : String
  characters : String
  events : String
  scenario : String
  places : String
  additionalSettings : String
deriving DecidableEq, Repr

/-- The world-specific settings payload built by `handleSend`
(`ChatInterface.tsx:297-310`). -/
structure WorldSettings where
  worldId : String
  model : String
  temperature : Int
  maxTokens : Int
  responseStyle : String
  conversationStyle : String
  customPersonality : String
  characters : String
  events : String
  scenario : String
  places : String
  additionalSettings : String
deriving DecidableEq, Repr

/-- The settings snapshot taken from the selected world
(`const worldSettings = selectedWorld ? {...} : undefined`). -/
def worldSettingsOf (w : World) : WorldSettings :=
  { worldId := w.id, model := w.model, temperature := w.temperature,
    maxTokens := w.maxTokens, responseStyle := w.responseStyle,
    conversationStyle := w.conversationStyle, customPersonality := w.customPersonality,
    characters := w.characters, events := w.events, scenario := w.scenario,
    places := w.places, additionalSettings := w.additionalSettings }

/-- One entry of the history window sent to the backend
(`history.slice(-10).map(msg => ({role: msg.role, content: msg.content}))`,
`Home.tsx:149-152`). -/
structure HistoryEntry where
  role : Role
  content : String
deriving DecidableEq, Repr

/-- The JSON body posted to `/api/chat` by `Home.tsx:159-166`. -/
structure ChatRequest where
  message : String
  userId : String
  name : String
  history : List HistoryEntry
  worldSettings : Option WorldSettings
deriving DecidableEq, Repr

/-- JS `arr.slice(-n)`: the last at most `n` elements, in order. -/
def sliceLast (l : List α) (n : Nat) : List α :=
  l.drop (l.length - n)

/-- The request composition of `Home.tsx:142-166`: the new text, the last 10
turns reduced to role and content, and the world settings (JS `null`, here
`none`, when no world is active). -/
def composeRequest (message userId userEmail : String)
    (history : List Message) (worldSettings : Option WorldSettings) : ChatRequest :=
  { message := message, userId := userId, name := userEmail,
    history := (sliceLast history 10).map (fun m => { role := m.role, content := m.content }),
    worldSettings := worldSettings }

/-- Controller state: the message store and the `isLoading` flag that disables
the input while a send is in flight (`ChatInterface.tsx:41, 290, 343, 469`). -/
structure ChatState where
  messages : List Message
  isLoading : Bool
deriving DecidableEq, Repr

/-- The optimistic user turn built by `handleSend` (`ChatInterface.tsx:280-285`):
locally generated id, current timestamp, no remote id. -/
def mkUserMessage (content : String) (now : Int) : Message :=
  { id := toString now, role := .user, content := content, timestamp := now,
    azureMessageId := none }

/-- The assistant (or apology) turn built by `handleSend`
(`ChatInterface.tsx:315-320, 332-337`). -/
def mkAssistantMessage (content : String) (now : Int) : Message :=
  { id := toString (now + 1), role := .assistant, content := content,
    timestamp := now, azureMessageId := none }

/-- Start of one send: `ChatInput.handleSend` (`ChatInput.tsx:14-22`) forwards
the trimmed text only when it is non-empty and the input is not disabled
(disabled is `isLoading`, `ChatInterface.tsx:469`); `ChatInterface.handleSend`
(`ChatInterface.tsx:279-313`) then appends the optimistic user turn, enters the
loading state, and issues the network request composed by `Home.tsx`. Returns
the new state and the list of network requests issued. -/
def startSend (st : ChatState) (raw : String) (userId userEmail : String)
    (selectedWorld : Option World) (now : Int) : ChatState × List ChatRequest :=
  if jsTrim raw = "" ∨ st.isLoading = true then (st, [])
  else
    let updatedMessages := st.messages ++ [mkUserMessage (jsTrim raw) now]
    ({ messages := updatedMessages, isLoading := true },
      [composeRequest (jsTrim raw) userId userEmail updatedMessages
        (selectedWorld.map worldSettingsOf)])

/-- Completion of one send (`ChatInterface.tsx:313-344`): on success the
assistant turn is appended, on any failure the fixed apology turn is appended;
either way prior turns are untouched, no further request is issued, and the
loading state is cleared. -/
def resolveSend (st : ChatState) (outcome : SendOutcome) (now : Int) : ChatState :=
  match outcome with
  | .success r => { messages := st.messages ++ [mkAssistantMessage (replyContent r) now],
                    isLoading := false }
  | .failure => { messages := st.messages ++ [mkAssistantMessage apologyText now],
                  isLoading := false }

/-! ### World-history loading and the missing stale-response guard -/

/-- The slice of component state relevant to history loading: the active world
and the message store (`ChatInterface.tsx:40, 42, 71`). -/
structure WorldChatState where
  activeWorldId : Option String
  messages : List Message
deriving DecidableEq, Repr

/-- Events of the history loader: the user selects a world (which triggers a
load for it, `ChatInterface.tsx:231-235`), or the initial-history fetch issued
for some world resolves with its turns. -/
inductive HistoryEvent where
  | selectWorld (worldId : Option String)
  | initialHistoryResolves (worldId : String) (turns : List Message)
deriving DecidableEq, Repr

/-- Effect of one event. `loadInitialWorldHistory` (`ChatInterface.tsx:74-139`)
runs `setMessages(historyMessages)` unconditionally after its `await`: the
`worldId` the request was issued for is captured in the closure but never
compared against the currently active world before the store is replaced, so
the resolution event ignores its `worldId` argument. -/
def historyStep (st : WorldChatState) : HistoryEvent → WorldChatState
  | .selectWorld w => { st with activeWorldId := w }
  | .initialHistoryResolves _ turns => { st with messages := sortByTimestamp turns }

/-- Run a sequence of history events. -/
def runHistory (st : WorldChatState) (events : List HistoryEvent) : WorldChatState :=
  events.foldl historyStep st

/-! ### World-history item normalization (`routes.ts:705-721`, `ChatInterface.tsx:96-122`) -/

/-- A raw history item as returned by the Azure Function, carrying both
historical key shapes (`input`/`text`, `aiReply`/`ai`, `CreatedUtc`/`createdUtc`).
Date strings are modelled as `Int` milliseconds; an absent or empty (falsy)
value is `none`. -/
structure AzureItem where
  id : Option String
  text : Option String
  input : Option String
  ai : Option String
  aiReply : Option String
  CreatedUtc : Option Int
  createdUtc : Option Int
deriving DecidableEq, Repr

/-- The server-side transform of `/api/chat/world-history` (`routes.ts:708-713`):
`input: item.text || item.input` and `aiReply: item.ai || item.aiReply`, all
other fields spread unchanged. -/
def serverTransformItem (it : AzureItem) : AzureItem :=
  { it with input := jsOrStr it.text it.input, aiReply := jsOrStr it.ai it.aiReply }

/-- The client-side conversion of one transformed item into messages
(`ChatInterface.tsx:98-118`): a user turn when `item.input` is truthy, then an
assistant turn when `item.aiReply` is truthy, both timestamped from
`item.createdUtc || Date.now()` and keyed by `item.id`. -/
def itemToMessages (now : Int) (index : Nat) (it : AzureItem) : List Message :=
  let uniqueId := (jsOrStr it.id none).getD (toString now ++ "-" ++ toString index)
  let ts := it.createdUtc.getD now
  (match jsOrStr it.input none with
   | some s => [{ id := "user-" ++ uniqueId, role := .user, content := s,
                  timestamp := ts, azureMessageId := it.id }]
   | none => []) ++
  (match jsOrStr it.aiReply none with
   | some s => [{ id := "ai-" ++ uniqueId, role := .assistant, content := s,
                  timestamp := ts, azureMessageId := it.id }]
   | none => [])

/-- The full world-history normalization of one item: server transform followed
by client conversion. -/
def normalizeWorldHistoryItem (now : Int) (index : Nat) (it : AzureItem) : List Message :=
  itemToMessages now index (serverTransformItem it)

/-! ### Scroll restoration (`ChatInterface.tsx:151-155, 216-222`) -/

/-- The scroll offset restored after prepending an older page:
`container.scrollTop = newScrollHeight - oldScrollHeight + oldScrollTop`. -/
def restoredScrollTop (oldScrollHeight oldScrollTop newScrollHeight : Int) : Int :=
  newScrollHeight - oldScrollHeight + oldScrollTop

/-! ## Theorems -/

theorem sortByTimestamp_perm (l : List Message) : sortByTimestamp l ~ l :=
  List.perm_insertionSort tsLE l

theorem sortByTimestamp_sorted (l : List Message) : (sortByTimestamp l).Sorted tsLE :=
  List.sorted_insertionSort tsLE l

theorem sortByTimestamp_of_sorted {l : List Message} (h : l.Sorted tsLE) :
    sortByTimestamp l = l :=
  List.Sorted.insertionSort_eq h

theorem mem_newIncoming {prev page : List Message} {t : Message} :
    t ∈ newIncoming prev page ↔ t ∈ page ∧ t.azureMessageId ∉ remoteIds prev := by
  simp [newIncoming, List.mem_filter]

/-- C9: after prepending an older page the restored scroll offset equals
`newScrollHeight − oldScrollHeight + oldScrollTop`; in particular, for
`oldScrollHeight = 1000`, `oldScrollTop = 50`, `newScrollHeight = 1400` the
restored `scrollTop` is `450`. -/
theorem scroll_restoration :
    (∀ oldScrollHeight oldScrollTop newScrollHeight : Int,
      restoredScrollTop oldScrollHeight oldScrollTop newScrollHeight =
        newScrollHeight - oldScrollHeight + oldScrollTop)
    ∧ restoredScrollTop 1000 50 1400 = 450 :=
  ⟨fun _ _ _ => rfl, by decide⟩

/-- C5: invoking send while a prior send for the same context is pending
(`isLoading = true`, which disables the input) issues no network call and
leaves the state unchanged. -/
theorem send_single_flight (st : ChatState) (raw userId userEmail : String)
    (world : Option World) (now : Int) (h : st.isLoading = true) :
    startSend st raw userId userEmail world now = (st, []) := by
  simp [startSend, h]

theorem send_single_flight_witness :
    startSend ⟨[], true⟩ "hello" "user-1" "a@b.c" none 0 = (⟨[], true⟩, []) :=
  send_single_flight ⟨[], true⟩ "hello" "user-1" "a@b.c" none 0 rfl

/-- C6: sending is a no-op on blank input — whenever the trimmed text is
empty, the store is unchanged and no network call is issued. -/
theorem send_blank_noop (st : ChatState) (raw userId userEmail : String)
    (world : Option World) (now : Int) (h : jsTrim raw = "") :
    startSend st raw userId userEmail world now = (st, []) := by
  simp [startSend, h]

theorem send_blank_noop_witness :
    jsTrim "   " = "" ∧
      startSend ⟨[], false⟩ "   " "user-1" "a@b.c" none 0 = (⟨[], false⟩, []) :=
  ⟨by decide, send_blank_noop ⟨[], false⟩ "   " "user-1" "a@b.c" none 0 (by decide)⟩

/-- C3: a failed send of non-empty text appends exactly two new turns — the
user turn with the sent text, then the fixed apology turn — prior turns are
untouched, and exactly one network request was issued (no retry). -/
theorem send_failure_fallback (st : ChatState) (raw userId userEmail : String)
    (world : Option World) (t1 t2 : Int)
    (hne : jsTrim raw ≠ "") (hidle : st.isLoading = false) :
    (resolveSend (startSend st raw userId userEmail world t1).1 .failure t2).messages =
      st.messages ++ [mkUserMessage (jsTrim raw) t1, mkAssistantMessage apologyText t2]
    ∧ (startSend st raw userId userEmail world t1).2.length = 1 := by
  constructor
  · simp [startSend, resolveSend, hne, hidle]
  · simp [startSend, hne, hidle]

theorem send_failure_fallback_witness :
    (resolveSend (startSend ⟨[], false⟩ "hello" "user-1" "a@b.c" none 5).1 .failure 6).messages =
      [mkUserMessage "hello" 5, mkAssistantMessage apologyText 6] := by
  have h := (send_failure_fallback ⟨[], false⟩ "hello" "user-1" "a@b.c" none 5 6
    (by decide) rfl).1
  rw [show jsTrim "hello" = "hello" from by decide] at h
  simpa using h

/-- C7: the emitted request is exactly the one composed from the trimmed text,
the last at most 10 turns of the updated store projected to role and content
(a suffix of the store, hence oldest-first whenever the store is
chronologically ordered), and the settings snapshot present exactly when a
world is active. -/
theorem send_request_shape (st : ChatState) (raw userId userEmail : String)
    (world : Option World) (now : Int)
    (hne : jsTrim raw ≠ "") (hidle : st.isLoading = false) :
    (startSend st raw userId userEmail world now).2 =
      [composeRequest (jsTrim raw) userId userEmail
        (st.messages ++ [mkUserMessage (jsTrim raw) now]) (world.map worldSettingsOf)]
    ∧ (∀ req ∈ (startSend st raw userId userEmail world now).2,
        req.message = jsTrim raw
        ∧ req.history =
            (sliceLast (st.messages ++ [mkUserMessage (jsTrim raw) now]) 10).map
              (fun m => { role := m.role, content := m.content })
        ∧ req.history.length ≤ 10
        ∧ (req.worldSettings.isSome ↔ world.isSome))
    ∧ sliceLast (st.messages ++ [mkUserMessage (jsTrim raw) now]) 10 <:+
        (st.messages ++ [mkUserMessage (jsTrim raw) now])
    ∧ ((st.messages ++ [mkUserMessage (jsTrim raw) now]).Sorted tsLE →
        (sliceLast (st.messages ++ [mkUserMessage (jsTrim raw) now]) 10).Sorted tsLE) := by
  have hemit : (startSend st raw userId userEmail world now).2 =
      [composeRequest (jsTrim raw) userId userEmail
        (st.messages ++ [mkUserMessage (jsTrim raw) now]) (world.map worldSettingsOf)] := by
    simp [startSend, hne, hidle]
  refine ⟨hemit, ?_, List.drop_suffix _ _, ?_⟩
  · intro req hreq
    rw [hemit, List.mem_singleton] at hreq
    subst hreq
    refine ⟨rfl, rfl, ?_, ?_⟩
    · simp only [composeRequest, List.length_map, sliceLast, List.length_drop]
      omega
    · cases world <;> simp [composeRequest]
  · intro hs
    exact hs.sublist (List.drop_suffix _ _).sublist

theorem send_request_shape_witness :
    (startSend ⟨[], false⟩ "hi" "user-1" "a@b.c" none 3).2 =
      [composeRequest (jsTrim "hi") "user-1" "a@b.c" [mkUserMessage (jsTrim "hi") 3] none] := by
  have h := (send_request_shape ⟨[], false⟩ "hi" "user-1" "a@b.c" none 3 (by decide) rfl).1
  simpa using h

/-- C10: an incoming older turn survives the duplicate filter precisely when
its `azureMessageId` — with the missing value treated as an ordinary key — is
not among the existing turns' ids; consequently, as soon as the store holds
any turn without an id, every incoming keyless turn is dropped. -/
theorem mergeOlder_missing_id_is_key :
    (∀ (prev page : List Message) (t : Message),
      t ∈ newIncoming prev page ↔ t ∈ page ∧ t.azureMessageId ∉ remoteIds prev)
    ∧ ∀ (prev page : List Message) (t : Message),
        (∃ m ∈ prev, m.azureMessageId = none) → t ∈ page → t.azureMessageId = none →
        t ∉ newIncoming prev page := by
  refine ⟨fun _ _ _ => mem_newIncoming, ?_⟩
  rintro prev page t ⟨m, hm, hmid⟩ _ hid hmem
  rcases mem_newIncoming.1 hmem with ⟨-, hnot⟩
  apply hnot
  rw [hid, ← hmid]
  exact List.mem_map_of_mem _ hm

theorem mergeOlder_missing_id_is_key_witness :
    ({ id := "t", role := .assistant, content := "old", timestamp := 5,
       azureMessageId := none } : Message) ∉
      newIncoming
        [{ id := "u", role := .user, content := "hi", timestamp := 10,
           azureMessageId := none }]
        [{ id := "t", role := .assistant, content := "old", timestamp := 5,
           azureMessageId := none }] :=
  mergeOlder_missing_id_is_key.2 _ _ _
    ⟨_, List.mem_singleton_self _, rfl⟩ (List.mem_singleton_self _) rfl

/-- C4 (code bug): the history loader applies a late result unconditionally.
After switching from world A to world B, the late-arriving initial-history
result that was fetched for A overwrites B's store instead of being
discarded. -/
theorem stale_history_applied :
    runHistory ⟨some "A", []⟩
      [.selectWorld (some "B"),
       .initialHistoryResolves "B"
         [{ id := "b", role := .assistant, content := "from B", timestamp := 1,
            azureMessageId := some "b" }],
       .initialHistoryResolves "A"
         [{ id := "a", role := .assistant, content := "from A", timestamp := 1,
            azureMessageId := some "a" }]] =
      ⟨some "B",
       [{ id := "a", role := .assistant, content := "from A", timestamp := 1,
          azureMessageId := some "a" }]⟩ := by
  decide

/-- C2: merging the same page twice yields exactly the store of merging it
once — same elements, same order — for every store state and every page. -/
theorem mergeOlder_idempotent (prev page : List Message) :
    mergeOlder (mergeOlder prev page) page = mergeOlder prev page := by
  have hmem : ∀ u : Message, u ∈ mergeOlder prev page ↔ u ∈ newIncoming prev page ++ prev :=
    fun u => (sortByTimestamp_perm _).mem_iff
  have hids : ∀ t ∈ page, t.azureMessageId ∈ remoteIds (mergeOlder prev page) := by
    intro t ht
    by_cases h : t.azureMessageId ∈ remoteIds prev
    · rcases List.mem_map.1 h with ⟨m, hm, hmeq⟩
      rw [← hmeq]
      exact List.mem_map_of_mem _ ((hmem m).2 (List.mem_append_right _ hm))
    · have hin : t ∈ newIncoming prev page := mem_newIncoming.2 ⟨ht, h⟩
      exact List.mem_map_of_mem _ ((hmem t).2 (List.mem_append_left _ hin))
  have hnil : newIncoming (mergeOlder prev page) page = [] := by
    rw [newIncoming, List.filter_eq_nil_iff]
    intro t ht
    simp only [decide_eq_true_eq, Decidable.not_not]
    exact hids t ht
  show sortByTimestamp (newIncoming (mergeOlder prev page) page ++ mergeOlder prev page) =
    mergeOlder prev page
  rw [hnil, List.nil_append]
  exact sortByTimestamp_of_sorted (sortByTimestamp_sorted _)

theorem specDedupFrom_append (acc l l' : List Message) :
    specDedupFrom acc (l ++ l') = specDedupFrom (specDedupFrom acc l) l' :=
  List.foldl_append _ _ _ _

theorem specAddTurn_of_dup {acc : List Message} {t : Message}
    (h : t.azureMessageId.isSome ∧ t.azureMessageId ∈ remoteIds acc) :
    specAddTurn acc t = acc := if_pos h

theorem specAddTurn_of_new {acc : List Message} {t : Message}
    (h : ¬(t.azureMessageId.isSome ∧ t.azureMessageId ∈ remoteIds acc)) :
    specAddTurn acc t = acc ++ [t] := if_neg h

/-- Under pairwise-distinct remote ids in `l`, the spec-side fold keeps exactly
the turns whose defined id is not already a key of the accumulator. -/
theorem specDedupFrom_eq_filter (l : List Message) :
    ∀ acc : List Message, (remoteIds l).Nodup →
    specDedupFrom acc l =
      acc ++ l.filter
        (fun t => !(t.azureMessageId.isSome && decide (t.azureMessageId ∈ remoteIds acc))) := by
  induction l with
  | nil => intro acc _; simp [specDedupFrom]
  | cons t rest ih =>
    intro acc hnodup
    have hcons := List.nodup_cons.1
      (show (t.azureMessageId :: remoteIds rest).Nodup from hnodup)
    have hkey : t.azureMessageId ∉ remoteIds rest := hcons.1
    have hrest : (remoteIds rest).Nodup := hcons.2
    have hstep : specDedupFrom acc (t :: rest) = specDedupFrom (specAddTurn acc t) rest := rfl
    by_cases hdup : t.azureMessageId.isSome ∧ t.azureMessageId ∈ remoteIds acc
    · rw [hstep, specAddTurn_of_dup hdup, ih acc hrest, List.filter_cons]
      have hpt : (!(t.azureMessageId.isSome && decide (t.azureMessageId ∈ remoteIds acc))) = false := by
        simp [hdup.1, hdup.2]
      rw [hpt]
      simp
    · rw [hstep, specAddTurn_of_new hdup, ih (acc ++ [t]) hrest]
      have hpred : ∀ u ∈ rest,
          (!(u.azureMessageId.isSome && decide (u.azureMessageId ∈ remoteIds (acc ++ [t])))) =
          (!(u.azureMessageId.isSome && decide (u.azureMessageId ∈ remoteIds acc))) := by
        intro u hu
        have hne : u.azureMessageId ≠ t.azureMessageId :=
          fun he => hkey (he ▸ List.mem_map_of_mem _ hu)
        simp [remoteIds, List.mem_append, hne]
      rw [List.filter_congr hpred, List.filter_cons]
      have hpt : (!(t.azureMessageId.isSome && decide (t.azureMessageId ∈ remoteIds acc))) = true := by
        rcases Decidable.not_and_iff_or_not.1 hdup with h | h <;> simp [h]
      rw [hpt]
      simp

/-- The spec-side fold only ever appends a subsequence of its input. -/
theorem specDedupFrom_sublist (l : List Message) :
    ∀ acc : List Message, ∃ l', l' <+ l ∧ specDedupFrom acc l = acc ++ l' := by
  induction l with
  | nil => intro acc; exact ⟨[], List.nil_sublist _, by simp [specDedupFrom]⟩
  | cons t rest ih =>
    intro acc
    have hstep : specDedupFrom acc (t :: rest) = specDedupFrom (specAddTurn acc t) rest := rfl
    by_cases hdup : t.azureMessageId.isSome ∧ t.azureMessageId ∈ remoteIds acc
    · rcases ih acc with ⟨l', hsub, heq⟩
      exact ⟨l', List.Sublist.cons _ hsub, by rw [hstep, specAddTurn_of_dup hdup, heq]⟩
    · rcases ih (acc ++ [t]) with ⟨l', hsub, heq⟩
      refine ⟨t :: l', List.Sublist.cons₂ _ hsub, ?_⟩
      rw [hstep, specAddTurn_of_new hdup, heq, List.append_assoc]
      rfl

/-- Two permuted lists, both sorted ascending by timestamp, with pairwise
distinct timestamps, are equal. -/
theorem eq_of_perm_of_sorted_distinct {l₁ l₂ : List Message}
    (hperm : l₁ ~ l₂) (hs₁ : l₁.Sorted tsLE) (hs₂ : l₂.Sorted tsLE)
    (hnd : (l₁.map (fun m => m.timestamp)).Nodup) : l₁ = l₂ := by
  have hnd₂ : (l₂.map (fun m => m.timestamp)).Nodup := ((hperm.map _).nodup_iff).1 hnd
  have hstrict : ∀ {l : List Message}, l.Sorted tsLE →
      (l.map (fun m => m.timestamp)).Nodup → l.Pairwise tsLT := by
    intro l hs hn
    have hne : l.Pairwise (fun a b : Message => a.timestamp ≠ b.timestamp) :=
      List.pairwise_map.1 hn
    exact (hs.and hne).imp (fun h => lt_of_le_of_ne h.1 h.2)
  exact List.eq_of_perm_of_sorted hperm (hstrict hs₁ hnd) (hstrict hs₂ hnd₂)

/-- The running store stays a permutation of the spec-side fold, for any
interleaving of well-formed operations. -/
theorem runOps_perm_spec (ops : List StoreOp) :
    ∀ S A : List Message, S ~ A → (∀ op ∈ ops, OpWf op) →
      runOps S ops ~ specDedupFrom A ((ops.map opTurns).flatten) := by
  induction ops with
  | nil => intro S A h _; simpa [runOps, specDedupFrom] using h
  | cons op rest ih =>
    intro S A hSA hwf
    have hop := hwf op (List.mem_cons_self _ _)
    have hrest : ∀ o ∈ rest, OpWf o := fun o ho => hwf o (List.mem_cons_of_mem _ ho)
    have hrun : runOps S (op :: rest) = runOps (applyOp S op) rest := rfl
    rw [hrun, List.map_cons, List.flatten_cons, specDedupFrom_append]
    cases op with
    | appendLocal t =>
      have ht : t.azureMessageId = none := hop
      have hA : specDedupFrom A (opTurns (.appendLocal t)) = A ++ [t] := by
        simp [opTurns, specDedupFrom, specAddTurn, ht]
      rw [hA]
      exact ih (S ++ [t]) (A ++ [t]) (hSA.append_right _) hrest
    | mergeOlder page =>
      obtain ⟨hkeyed, hnodup⟩ := hop
      have hfilter_eq : newIncoming S page = newIncoming A page := by
        apply List.filter_congr
        intro t _
        have hiff : t.azureMessageId ∈ remoteIds S ↔ t.azureMessageId ∈ remoteIds A :=
          (hSA.map (fun m => m.azureMessageId)).mem_iff
        exact decide_eq_decide.2 (not_congr hiff)
      have hspec : specDedupFrom A (opTurns (.mergeOlder page)) = A ++ newIncoming A page := by
        rw [opTurns, specDedupFrom_eq_filter page A hnodup]
        congr 1
        apply List.filter_congr
        intro t ht
        simp [hkeyed t ht, newIncoming]
      have hcode : mergeOlder S page ~ A ++ newIncoming A page := by
        calc mergeOlder S page
            ~ newIncoming S page ++ S := sortByTimestamp_perm _
          _ = newIncoming A page ++ S := by rw [hfilter_eq]
          _ ~ newIncoming A page ++ A := List.Perm.append_left _ hSA
          _ ~ A ++ newIncoming A page := List.perm_append_comm
      rw [hspec]
      exact ih (mergeOlder S page) (A ++ newIncoming A page) hcode hrest

/-- C1 (amended): provided optimistic appends carry no remote id, every merged
turn carries a remote id, ids repeat neither inside the initial store nor
inside a single page, and all involved turns have pairwise-distinct
timestamps, the resulting store sorted ascending by timestamp equals the
sorted union of the initial, appended and merged turns with duplicates
(repetitions of an already-seen defined remote id) removed. -/
theorem merge_invariant_amended (init : List Message) (ops : List StoreOp)
    (hwf : ∀ op ∈ ops, OpWf op)
    (hinit : (remoteIds init).Nodup)
    (hts : ((allTurns init ops).map (fun m => m.timestamp)).Nodup) :
    sortByTimestamp (runOps init ops) = specStore init ops := by
  have hinit_eq : specDedup init = init := by
    rw [specDedup, specDedupFrom_eq_filter init [] hinit]
    simp [remoteIds]
  have hspec_eq : specDedupFrom init ((ops.map opTurns).flatten) =
      specDedup (allTurns init ops) := by
    rw [specDedup, allTurns, specDedupFrom_append, ← specDedup, hinit_eq]
  have hperm : runOps init ops ~ specDedup (allTurns init ops) := by
    rw [← hspec_eq]
    exact runOps_perm_spec ops init init (List.Perm.refl _) hwf
  have hfull : sortByTimestamp (runOps init ops) ~ specStore init ops :=
    ((sortByTimestamp_perm _).trans hperm).trans (sortByTimestamp_perm _).symm
  apply eq_of_perm_of_sorted_distinct hfull (sortByTimestamp_sorted _) (sortByTimestamp_sorted _)
  rcases specDedupFrom_sublist (allTurns init ops) [] with ⟨l', hsub, heq⟩
  have hdedup : specDedup (allTurns init ops) = l' := by simpa [specDedup] using heq
  have hnd' : ((specDedup (allTurns init ops)).map (fun m => m.timestamp)).Nodup := by
    rw [hdedup]
    exact (hsub.map _).nodup hts
  have hp : sortByTimestamp (runOps init ops) ~ specDedup (allTurns init ops) :=
    (sortByTimestamp_perm _).trans hperm
  exact ((hp.map _).nodup_iff).2 hnd'

theorem merge_invariant_amended_witness :
    sortByTimestamp (runOps
      [{ id := "m1", role := .assistant, content := "first", timestamp := 1,
         azureMessageId := some "a" }]
      [.appendLocal { id := "u", role := .user, content := "hi", timestamp := 4,
                      azureMessageId := none },
       .mergeOlder [{ id := "p", role := .user, content := "older", timestamp := 2,
                      azureMessageId := some "b" }]]) =
    specStore
      [{ id := "m1", role := .assistant, content := "first", timestamp := 1,
         azureMessageId := some "a" }]
      [.appendLocal { id := "u", role := .user, content := "hi", timestamp := 4,
                      azureMessageId := none },
       .mergeOlder [{ id := "p", role := .user, content := "older", timestamp := 2,
                      azureMessageId := some "b" }]] :=
  merge_invariant_amended _ _ (by decide) (by decide) (by decide)

/-- C1 counterexample: starting from an empty store, appending one keyless
optimistic turn and then merging one keyless older turn leaves only the
appended turn in the store (the code drops the keyless newcomer as a
"duplicate"), while the sorted deduplicated union of the claim contains both
turns. -/
theorem merge_invariant_counterexample :
    sortByTimestamp (runOps []
      [.appendLocal { id := "u", role := .user, content := "hello", timestamp := 10,
                      azureMessageId := none },
       .mergeOlder [{ id := "t", role := .assistant, content := "old", timestamp := 5,
                      azureMessageId := none }]]) ≠
    specStore []
      [.appendLocal { id := "u", role := .user, content := "hello", timestamp := 10,
                      azureMessageId := none },
       .mergeOlder [{ id := "t", role := .assistant, content := "old", timestamp := 5,
                      azureMessageId := none }]] := by
  decide

/-- C8 (amended): the world-history normalization yields identical turns
whether an item carries its user text under `text` or under `input`, and
whether it carries its assistant text under `ai` or under `aiReply`; the turn
timestamp, however, is read only from `createdUtc` — the `CreatedUtc` spelling
is ignored by this pipeline (an item carrying only `CreatedUtc` falls back to
the current time). -/
theorem world_history_normalization (it : AzureItem) (s : String) (now : Int) (index : Nat) :
    (it.text = none → it.input = none →
      normalizeWorldHistoryItem now index { it with text := some s } =
        normalizeWorldHistoryItem now index { it with input := some s })
    ∧ (it.ai = none → it.aiReply = none →
      normalizeWorldHistoryItem now index { it with ai := some s } =
        normalizeWorldHistoryItem now index { it with aiReply := some s })
    ∧ normalizeWorldHistoryItem now index it =
      normalizeWorldHistoryItem now index { it with CreatedUtc := none } := by
  refine ⟨?_, ?_, ?_⟩
  · intro htext hinput
    by_cases hs : s = "" <;>
      simp [normalizeWorldHistoryItem, serverTransformItem, itemToMessages, jsOrStr,
        htext, hinput, hs]
  · intro hai haiReply
    by_cases hs : s = "" <;>
      simp [normalizeWorldHistoryItem, serverTransformItem, itemToMessages, jsOrStr,
        hai, haiReply, hs]
  · cases it
    rfl

theorem world_history_normalization_witness :
    normalizeWorldHistoryItem 100 0
      { (⟨some "1", none, none, some "yo", none, none, some 7⟩ : AzureItem) with
        text := some "hi" } =
    normalizeWorldHistoryItem 100 0
      { (⟨some "1", none, none, some "yo", none, none, some 7⟩ : AzureItem) with
        input := some "hi" } :=
  (world_history_normalization ⟨some "1", none, none, some "yo", none, none, some 7⟩
    "hi" 100 0).1 rfl rfl

/-- C8 counterexample: an item carrying its creation time only under
`CreatedUtc` is timestamped with the current-time fallback, while the same
item carrying it under `createdUtc` is timestamped with that value — the two
key shapes do not yield the same turn timestamp. -/
theorem world_history_normalization_counterexample :
    normalizeWorldHistoryItem 100 0
      ⟨some "1", some "hi", none, none, none, some 5, none⟩ ≠
    normalizeWorldHistoryItem 100 0
      ⟨some "1", some "hi", none, none, none, none, some 5⟩ := by
  decide

end Chat
